import Mathlib

/-!
Shallow embedding of `src/functions.py` from the repository
`Viktor-Johnsen/46770_final_project` (auxiliary functions for an
Integrated Energy Grids course project), together with theorems settling
the claims about it.

Modelling conventions:
* Python floats are modelled exactly: all quantities in the source are
  rational expressions except the storage round-trip-efficiency square
  roots, which live in `ℝ` via `Real.sqrt`.
* A Python `dict` built by a comprehension is modelled as an
  insertion-ordered association list in which inserting an existing key
  overwrites its value in place (`pyDict`); `dict[k]` lookup is `pyGet`,
  returning `Option` so that a missing key (Python `KeyError`) is `none`.
* `load_generator_data` can raise `KeyError` while building its
  marginal-cost dictionary (it subscripts `dict_fuel_costs[tech]` for
  every input label, including labels past the six data rows), so it is
  embedded with result type `Option`.
-/

/-- Python-dict insertion: overwrite the value in place if the key is
already present, otherwise append the pair at the end. -/
def pyDictInsert {α : Type} (d : List (String × α)) (kv : String × α) :
    List (String × α) :=
  if d.any (fun p => p.1 == kv.1) then
    d.map (fun p => if p.1 == kv.1 then kv else p)
  else d ++ [kv]

/-- Build a Python dict (insertion-ordered, last value wins) from a list
of key-value pairs, as a dict comprehension over that list does. -/
def pyDict {α : Type} (l : List (String × α)) : List (String × α) :=
  l.foldl pyDictInsert []

/-- The keys of a dict, in order. -/
def pyKeys {α : Type} (d : List (String × α)) : List String :=
  d.map Prod.fst

/-- The values of a dict, in order. -/
def pyValues {α : Type} (d : List (String × α)) : List α :=
  d.map Prod.snd

/-- Python `d[k]`: `some` value, or `none` for a `KeyError`. -/
def pyGet {α : Type} (d : List (String × α)) (k : String) : Option α :=
  (d.find? (fun p => p.1 == k)).map Prod.snd

/-- Module-level constant `dollar2euro = 0.9239` of `functions.py`. -/
def dollar2euro : ℚ := 9239 / 10000

/-- `annuity(n, r)` from `functions.py`: `r/(1. - 1./(1.+r)**n)` when
`r > 0`, else `1/n`.  Lifetimes in the module are whole years, so `n : ℕ`. -/
def annuity (n : ℕ) (r : ℚ) : ℚ :=
  if 0 < r then r / (1 - 1 / (1 + r) ^ n) else 1 / (n : ℚ)

/-! Generator data (`load_generator_data`): unit-conversion constants and
the six hardcoded data rows for wind, solar, OCGT, coal, biomass, nuclear. -/

/-- `kJ2MWh = 1/(10**3 * 60**2)`. -/
def kJ2MWh : ℚ := 1 / (10 ^ 3 * 60 ^ 2)

/-- `MMBtu2MWh = 0.293`. -/
def MMBtu2MWh : ℚ := 293 / 1000

/-- `coal_energy_density = 24 / 60**2 * 10**3`. -/
def coal_energy_density : ℚ := 24 / 60 ^ 2 * 10 ^ 3

/-- `lifetimes = [30, 25, 25, 15, 40, 25]` (years). -/
def lifetimes : List ℕ := [30, 25, 25, 15, 40, 25]

/-- `capital_costs = np.array([1.333, 0.26, 0.435, 1.75, 9, 3.1]) * 10**6`. -/
def capital_costs : List ℚ :=
  [1333 / 1000, 26 / 100, 435 / 1000, 175 / 100, 9, 31 / 10].map (· * 10 ^ 6)

/-- The capital-cost annualization applied in both loader functions:
`annuity(lifetime, 0.07) * cost * (1 + 0.03)`. -/
def annualized (cost : ℚ) (lifetime : ℕ) : ℚ :=
  annuity lifetime (7 / 100) * cost * (1 + 3 / 100)

/-- `dict_capital_costs_annualized` of `load_generator_data`. -/
def dict_capital_costs_annualized (techs_labels : List String) :
    List (String × ℚ) :=
  pyDict ((techs_labels.zip (capital_costs.zip lifetimes)).map
    (fun x => (x.1, annualized x.2.1 x.2.2)))

/-- `efficiencies = np.array([1, 1, 0.43, 0.4, 1, 0.305])`. -/
def efficiencies : List ℚ := [1, 1, 43 / 100, 4 / 10, 1, 305 / 1000]

/-- `dict_efficiencies` of `load_generator_data`. -/
def dict_efficiencies (techs_labels : List String) : List (String × ℚ) :=
  pyDict (techs_labels.zip efficiencies)

/-- `gas_co2_emissions = 52.91/10**3`. -/
def gas_co2_emissions : ℚ := (5291 / 100) / 10 ^ 3

/-- `coal_co2_emissions = 95.99/10**3`. -/
def coal_co2_emissions : ℚ := (9599 / 100) / 10 ^ 3

/-- `fuel_costs_dollars`: the six per-technology fuel prices in dollars. -/
def fuel_costs_dollars : List ℚ :=
  [0, 0, 4197 / 100, (12954 / 100) / coal_energy_density, 1011 / 100,
   41 / 10 ^ 3 / 19970 / kJ2MWh]

/-- `fuel_costs`: elementwise product with `[0, 0, dollar2euro, dollar2euro,
dollar2euro, dollar2euro]`. -/
def fuel_costs : List ℚ :=
  List.zipWith (· * ·) fuel_costs_dollars
    [0, 0, dollar2euro, dollar2euro, dollar2euro, dollar2euro]

/-- `dict_fuel_costs` of `load_generator_data`. -/
def dict_fuel_costs (techs_labels : List String) : List (String × ℚ) :=
  pyDict (techs_labels.zip fuel_costs)

/-- The comprehension `{tech: dict_fuel_costs[tech] / dict_efficiencies[tech]
for tech in techs_labels}` subscripts both dicts at every input label, so a
label that is absent from them (possible when more than six labels are
supplied) raises `KeyError`; the builder therefore returns `Option`,
entries in input order. -/
def marginalCostPairs (fuels effs : List (String × ℚ)) :
    List String → Option (List (String × ℚ))
  | [] => some []
  | t :: ts =>
    match pyGet fuels t, pyGet effs t, marginalCostPairs fuels effs ts with
    | some f, some e, some rest => some ((t, f / e) :: rest)
    | _, _, _ => none

/-- `dict_marginal_costs` of `load_generator_data` (`none` = `KeyError`). -/
def dict_marginal_costs (techs_labels : List String) :
    Option (List (String × ℚ)) :=
  (marginalCostPairs (dict_fuel_costs techs_labels)
    (dict_efficiencies techs_labels) techs_labels).map pyDict

/-- `CO2_emissions`: a plain six-element list, not keyed by the labels. -/
def CO2_emissions : List ℚ :=
  [0, 0, gas_co2_emissions / MMBtu2MWh, coal_co2_emissions / MMBtu2MWh, 0, 0]

/-- `load_generator_data(techs_labels)`: three dicts and the raw
`CO2_emissions` list; `none` models the `KeyError` raised while building
the marginal-cost dict. -/
def load_generator_data (techs_labels : List String) :
    Option (List (String × ℚ) × List (String × ℚ) × List (String × ℚ) × List ℚ) :=
  (dict_marginal_costs techs_labels).map
    (fun mc => (dict_capital_costs_annualized techs_labels, mc,
                dict_efficiencies techs_labels, CO2_emissions))

/-! Storage data (`load_storage_units_data`): three hardcoded rows for a
molten-salt carnot battery, Li-ion, and a vanadium redox battery. -/

/-- `Crates = np.array([120/800, 3.5/7, 0.5/2])` (MW / MWh). -/
def Crates : List ℚ := [120 / 800, (35 / 10) / 7, (5 / 10) / 2]

/-- `capital_costs_storageunits_MWh = np.array([0.063, 0.66, 0.37]) * 1e6`. -/
def capital_costs_storageunits_MWh : List ℚ :=
  [63 / 1000, 66 / 100, 37 / 100].map (· * 10 ^ 6)

/-- `capital_costs_storageunits`: elementwise division by the C-rates. -/
def capital_costs_storageunits : List ℚ :=
  List.zipWith (· / ·) capital_costs_storageunits_MWh Crates

/-- `lifetimes_storageunits = np.array([25, 25, 20])`. -/
def lifetimes_storageunits : List ℕ := [25, 25, 20]

/-- `dict_capital_costs_annualized_storageunits` of `load_storage_units_data`. -/
def dict_capital_costs_annualized_storageunits
    (techs_labels_storageunits : List String) : List (String × ℚ) :=
  pyDict ((techs_labels_storageunits.zip
      (capital_costs_storageunits.zip lifetimes_storageunits)).map
    (fun x => (x.1, annualized x.2.1 x.2.2)))

/-- The three literal round-trip efficiencies `[0.3, 0.92, 0.78]`. -/
def round_trip_efficiencies : List ℚ := [3 / 10, 92 / 100, 78 / 100]

/-- `efficiencies_in`: square roots of the round-trip efficiencies, zipped
against the labels. -/
noncomputable def efficiencies_in (techs_labels_storageunits : List String) :
    List (String × ℝ) :=
  pyDict (techs_labels_storageunits.zip
    (round_trip_efficiencies.map (fun q => Real.sqrt (q : ℝ))))

/-- `efficiencies_out`: built from the same literals as `efficiencies_in`. -/
noncomputable def efficiencies_out (techs_labels_storageunits : List String) :
    List (String × ℝ) :=
  pyDict (techs_labels_storageunits.zip
    (round_trip_efficiencies.map (fun q => Real.sqrt (q : ℝ))))

/-- `hourly_losses`: `np.array([0.9, 0.1, 0.0])/100/24` zipped against the
labels. -/
def hourly_losses (techs_labels_storageunits : List String) :
    List (String × ℚ) :=
  pyDict (techs_labels_storageunits.zip
    ([9 / 10, 1 / 10, 0].map (fun q => q / 100 / 24)))

/-- `load_storage_units_data(techs_labels_storageunits)`: four dicts and, as
fourth component, the raw `Crates` array (not label-keyed). -/
noncomputable def load_storage_units_data
    (techs_labels_storageunits : List String) :
    List (String × ℚ) × List (String × ℝ) × List (String × ℝ) ×
      List ℚ × List (String × ℚ) :=
  (dict_capital_costs_annualized_storageunits techs_labels_storageunits,
   efficiencies_in techs_labels_storageunits,
   efficiencies_out techs_labels_storageunits,
   Crates,
   hourly_losses techs_labels_storageunits)

/-- `load_hydro_cost()`: `annuity(75, 0.07) * (1628 * dollar2euro * 10**3) *
(1 + 0.03)`. -/
def load_hydro_cost : ℚ :=
  annualized (1628 * dollar2euro * 10 ^ 3) 75

/-- The canonical six generator technology labels, in the order of the
hardcoded data rows. -/
def generator_labels : List String :=
  ["wind", "solar", "OCGT", "coal", "biomass", "nuclear"]

/-- Canonical labels for the three storage technologies, in the order of
the hardcoded data rows (molten-salt carnot battery, Li-ion, vanadium
redox battery). -/
def storage_labels : List String :=
  ["molten salt", "Li-ion", "vanadium redox"]

/-! Generic lemmas about the Python-dict model. -/

theorem any_key_eq_true {α : Type} (d : List (String × α)) (c : String) :
    d.any (fun p => p.1 == c) = true ↔ c ∈ pyKeys d := by
  simp only [List.any_eq_true, beq_iff_eq, pyKeys, List.mem_map]

theorem mem_pyKeys_pyDictInsert {α : Type} (d : List (String × α))
    (kv : String × α) (k : String) :
    k ∈ pyKeys (pyDictInsert d kv) ↔ k ∈ pyKeys d ∨ k = kv.1 := by
  unfold pyDictInsert
  by_cases h : d.any (fun p => p.1 == kv.1) = true
  · rw [if_pos h]
    have hfst : pyKeys (d.map (fun p => if p.1 == kv.1 then kv else p))
        = pyKeys d := by
      unfold pyKeys
      rw [List.map_map]
      apply List.map_congr_left
      intro p _
      by_cases hp : p.1 = kv.1
      · simp [hp]
      · simp [hp]
    rw [hfst]
    constructor
    · exact Or.inl
    · rintro (hk | rfl)
      · exact hk
      · exact (any_key_eq_true d kv.1).mp h
  · rw [if_neg h]
    simp [pyKeys]

theorem mem_pyKeys_foldl {α : Type} (l : List (String × α)) :
    ∀ (d : List (String × α)) (k : String),
      k ∈ pyKeys (l.foldl pyDictInsert d) ↔
        k ∈ pyKeys d ∨ k ∈ l.map Prod.fst := by
  induction l with
  | nil => simp
  | cons x xs ih =>
    intro d k
    rw [List.foldl_cons, ih, mem_pyKeys_pyDictInsert]
    simp [or_assoc, eq_comm]

theorem mem_pyKeys_pyDict {α : Type} (l : List (String × α)) (k : String) :
    k ∈ pyKeys (pyDict l) ↔ k ∈ l.map Prod.fst := by
  rw [pyDict, mem_pyKeys_foldl]
  simp [pyKeys]

theorem mem_pyValues_pyDictInsert {α : Type} (d : List (String × α))
    (kv : String × α) (v : α) (hv : v ∈ pyValues (pyDictInsert d kv)) :
    v ∈ pyValues d ∨ v = kv.2 := by
  unfold pyDictInsert at hv
  by_cases h : d.any (fun p => p.1 == kv.1) = true
  · rw [if_pos h] at hv
    unfold pyValues at hv ⊢
    rw [List.map_map, List.mem_map] at hv
    obtain ⟨p, hp, hpv⟩ := hv
    by_cases hk : p.1 = kv.1
    · right
      simpa [hk] using hpv.symm
    · left
      rw [List.mem_map]
      exact ⟨p, hp, by simpa [hk] using hpv⟩
  · rw [if_neg h] at hv
    unfold pyValues at hv ⊢
    rw [List.map_append, List.mem_append] at hv
    rcases hv with hv | hv
    · exact Or.inl hv
    · right
      simpa using hv

theorem mem_pyValues_foldl {α : Type} (l : List (String × α)) :
    ∀ (d : List (String × α)) (v : α),
      v ∈ pyValues (l.foldl pyDictInsert d) →
        v ∈ pyValues d ∨ v ∈ l.map Prod.snd := by
  induction l with
  | nil => simp
  | cons x xs ih =>
    intro d v hv
    rw [List.foldl_cons] at hv
    rcases ih (pyDictInsert d x) v hv with hv' | hv'
    · rcases mem_pyValues_pyDictInsert d x v hv' with hv'' | hv''
      · exact Or.inl hv''
      · right
        simp [hv'']
    · right
      simp [hv']

theorem mem_pyValues_pyDict {α : Type} (l : List (String × α)) (v : α)
    (hv : v ∈ pyValues (pyDict l)) : v ∈ l.map Prod.snd := by
  rcases mem_pyValues_foldl l [] v hv with h | h
  · simp [pyValues] at h
  · exact h

theorem pyGet_isSome_iff {α : Type} (d : List (String × α)) (k : String) :
    (pyGet d k).isSome = true ↔ k ∈ pyKeys d := by
  unfold pyGet
  have hmap : ∀ o : Option (String × α), (o.map Prod.snd).isSome = o.isSome := by
    intro o
    cases o <;> rfl
  rw [hmap, List.find?_isSome, ← any_key_eq_true d k, List.any_eq_true]

theorem map_fst_zip_eq_take {α : Type} :
    ∀ (l1 : List String) (l2 : List α),
      (l1.zip l2).map Prod.fst = l1.take l2.length := by
  intro l1
  induction l1 with
  | nil => intro l2; simp
  | cons x xs ih =>
    intro l2
    cases l2 with
    | nil => simp
    | cons y ys => simp [ih ys]

/-! Lemmas about the marginal-cost builder. -/

theorem marginalCostPairs_map_fst (F E : List (String × ℚ)) :
    ∀ (ts : List String) (ms : List (String × ℚ)),
      marginalCostPairs F E ts = some ms → ms.map Prod.fst = ts := by
  intro ts
  induction ts with
  | nil =>
    intro ms h
    simp only [marginalCostPairs, Option.some.injEq] at h
    simp [← h]
  | cons t ts ih =>
    intro ms h
    unfold marginalCostPairs at h
    cases hf : pyGet F t <;> rw [hf] at h
    · simp at h
    cases he : pyGet E t <;> rw [he] at h
    · simp at h
    cases hr : marginalCostPairs F E ts <;> rw [hr] at h
    · simp at h
    simp only [Option.some.injEq] at h
    subst h
    simp [ih _ hr]

theorem marginalCostPairs_isSome_iff (F E : List (String × ℚ)) :
    ∀ (ts : List String),
      (marginalCostPairs F E ts).isSome = true ↔
        ∀ t ∈ ts, t ∈ pyKeys F ∧ t ∈ pyKeys E := by
  intro ts
  induction ts with
  | nil => simp [marginalCostPairs]
  | cons t ts ih =>
    unfold marginalCostPairs
    cases hf : pyGet F t
    · have hfk : t ∉ pyKeys F := by
        rw [← pyGet_isSome_iff, hf]
        simp
      simp [hfk]
    cases he : pyGet E t
    · have hek : t ∉ pyKeys E := by
        rw [← pyGet_isSome_iff, he]
        simp
      simp [hek]
    have hfk : t ∈ pyKeys F := by
      rw [← pyGet_isSome_iff, hf]
      rfl
    have hek : t ∈ pyKeys E := by
      rw [← pyGet_isSome_iff, he]
      rfl
    cases hr : marginalCostPairs F E ts
    · rw [hr] at ih
      simp only [Option.isSome_none, Bool.false_eq_true, false_iff] at ih
      push_neg at ih
      obtain ⟨u, hu, hun⟩ := ih
      simp only [Option.isSome_none, Bool.false_eq_true, false_iff]
      push_neg
      exact ⟨u, List.mem_cons_of_mem t hu, hun⟩
    · rw [hr] at ih
      simp only [Option.isSome_some, true_iff] at ih
      simp only [Option.isSome_some, true_iff]
      intro u hu
      rcases List.mem_cons.mp hu with rfl | hu'
      · exact ⟨hfk, hek⟩
      · exact ih u hu'

/-! Lemmas about the annuity factor. -/

theorem annuity_of_pos (n : ℕ) (r : ℚ) (hr : 0 < r) :
    annuity n r = r / (1 - 1 / (1 + r) ^ n) := if_pos hr

theorem annuity_of_nonpos (n : ℕ) (r : ℚ) (hr : ¬ 0 < r) :
    annuity n r = 1 / (n : ℚ) := if_neg hr

theorem annuity_pos (n : ℕ) (hn : 0 < n) (r : ℚ) (hr : 0 ≤ r) :
    0 < annuity n r := by
  rcases eq_or_lt_of_le hr with hr' | hr'
  · rw [annuity_of_nonpos n r (by rw [← hr']; exact lt_irrefl 0)]
    have : (0 : ℚ) < n := by exact_mod_cast hn
    positivity
  · rw [annuity_of_pos n r hr']
    apply div_pos hr'
    have h1r : (0 : ℚ) < 1 + r := by linarith
    have hpow : 1 < (1 + r) ^ n := one_lt_pow₀ (by linarith) hn.ne'
    have : 1 / (1 + r) ^ n < 1 := by
      rw [div_lt_one (by positivity)]
      exact hpow
    linarith

theorem sum_pow_succ_eq (x : ℚ) (n : ℕ) :
    (1 - x) * ∑ k ∈ Finset.range n, x ^ (k + 1) = x * (1 - x ^ n) := by
  have hG := geom_sum_mul x n
  have hsum : ∑ k ∈ Finset.range n, x ^ (k + 1)
      = x * ∑ k ∈ Finset.range n, x ^ k := by
    rw [Finset.mul_sum]
    exact Finset.sum_congr rfl (fun k _ => by ring)
  rw [hsum]
  linear_combination (-x) * hG

theorem annuity_mul_sum (n : ℕ) (hn : 0 < n) (r : ℚ) (hr : 0 ≤ r) :
    annuity n r * (∑ k ∈ Finset.range n, (1 / (1 + r)) ^ (k + 1)) = 1 := by
  have hncast : ((n : ℚ)) ≠ 0 := Nat.cast_ne_zero.mpr hn.ne'
  rcases eq_or_lt_of_le hr with hr' | hr'
  · rw [← hr']
    rw [annuity_of_nonpos n 0 (lt_irrefl 0)]
    simp [hncast]
  · have h1r : (0 : ℚ) < 1 + r := by linarith
    have hx0 : (0 : ℚ) < 1 / (1 + r) := by positivity
    have hx1 : 1 / (1 + r) < 1 := by
      rw [div_lt_one h1r]
      linarith
    have hxn : (1 / (1 + r)) ^ n < 1 := pow_lt_one₀ hx0.le hx1 hn.ne'
    have hdne : 1 - (1 / (1 + r)) ^ n ≠ 0 := by linarith
    have hx : (1 : ℚ) - 1 / (1 + r) = r * (1 / (1 + r)) := by
      field_simp
    have h2 := sum_pow_succ_eq (1 / (1 + r)) n
    rw [hx] at h2
    have hkey : r * (∑ k ∈ Finset.range n, (1 / (1 + r)) ^ (k + 1))
        = 1 - (1 / (1 + r)) ^ n := by
      apply mul_left_cancel₀ hx0.ne'
      linear_combination h2
    have hxpow : 1 / (1 + r) ^ n = (1 / (1 + r)) ^ n := by
      rw [div_pow, one_pow]
    rw [annuity_of_pos n r hr', hxpow, div_mul_eq_mul_div,
      div_eq_one_iff_eq hdne]
    exact hkey

theorem annuity_eq_one_div_sum (n : ℕ) (hn : 0 < n) (r : ℚ) (hr : 0 ≤ r) :
    annuity n r = 1 / (∑ k ∈ Finset.range n, (1 / (1 + r)) ^ (k + 1)) := by
  have h1r : (0 : ℚ) < 1 + r := by linarith
  have hS : 0 < ∑ k ∈ Finset.range n, (1 / (1 + r)) ^ (k + 1) :=
    Finset.sum_pos (fun i _ => pow_pos (by positivity) _)
      (Finset.nonempty_range_iff.mpr hn.ne')
  rw [eq_div_iff hS.ne']
  exact annuity_mul_sum n hn r hr

theorem annuity_strict_mono (n : ℕ) (hn : 0 < n) (r1 r2 : ℚ)
    (h1 : 0 ≤ r1) (h12 : r1 < r2) : annuity n r1 < annuity n r2 := by
  have h2 : 0 ≤ r2 := le_trans h1 h12.le
  have h1r1 : (0 : ℚ) < 1 + r1 := by linarith
  have h1r2 : (0 : ℚ) < 1 + r2 := by linarith
  have hb : (0 : ℚ) < 1 / (1 + r2) := by positivity
  have hlt : 1 / (1 + r2) < 1 / (1 + r1) :=
    one_div_lt_one_div_of_lt h1r1 (by linarith)
  have hS : (∑ k ∈ Finset.range n, (1 / (1 + r2)) ^ (k + 1))
      < ∑ k ∈ Finset.range n, (1 / (1 + r1)) ^ (k + 1) := by
    apply Finset.sum_lt_sum_of_nonempty (Finset.nonempty_range_iff.mpr hn.ne')
    intro k _
    exact pow_lt_pow_left₀ hlt hb.le (Nat.succ_ne_zero k)
  have hS2 : 0 < ∑ k ∈ Finset.range n, (1 / (1 + r2)) ^ (k + 1) :=
    Finset.sum_pos (fun i _ => pow_pos (by positivity) _)
      (Finset.nonempty_range_iff.mpr hn.ne')
  rw [annuity_eq_one_div_sum n hn r1 h1, annuity_eq_one_div_sum n hn r2 h2]
  exact one_div_lt_one_div_of_lt hS2 hS

/-! Key-set lemmas for the individual dictionaries. -/

theorem keys_dict_capital (labels : List String) (k : String) :
    k ∈ pyKeys (dict_capital_costs_annualized labels) ↔ k ∈ labels.take 6 := by
  rw [dict_capital_costs_annualized, mem_pyKeys_pyDict, List.map_map]
  have hcomp : (Prod.fst ∘ fun (x : String × ℚ × ℕ) =>
      (x.1, annualized x.2.1 x.2.2)) = Prod.fst := rfl
  rw [hcomp, map_fst_zip_eq_take]
  have hlen : (capital_costs.zip lifetimes).length = 6 := rfl
  rw [hlen]

theorem keys_dict_efficiencies (labels : List String) (k : String) :
    k ∈ pyKeys (dict_efficiencies labels) ↔ k ∈ labels.take 6 := by
  rw [dict_efficiencies, mem_pyKeys_pyDict, map_fst_zip_eq_take]
  have hlen : efficiencies.length = 6 := rfl
  rw [hlen]

theorem keys_dict_fuel (labels : List String) (k : String) :
    k ∈ pyKeys (dict_fuel_costs labels) ↔ k ∈ labels.take 6 := by
  rw [dict_fuel_costs, mem_pyKeys_pyDict, map_fst_zip_eq_take]
  have hlen : fuel_costs.length = 6 := rfl
  rw [hlen]

theorem keys_dict_capital_storage (labels : List String) (k : String) :
    k ∈ pyKeys (dict_capital_costs_annualized_storageunits labels) ↔
      k ∈ labels.take 3 := by
  rw [dict_capital_costs_annualized_storageunits, mem_pyKeys_pyDict,
    List.map_map]
  have hcomp : (Prod.fst ∘ fun (x : String × ℚ × ℕ) =>
      (x.1, annualized x.2.1 x.2.2)) = Prod.fst := rfl
  rw [hcomp, map_fst_zip_eq_take]
  have hlen : (capital_costs_storageunits.zip lifetimes_storageunits).length
      = 3 := rfl
  rw [hlen]

theorem keys_efficiencies_in (labels : List String) (k : String) :
    k ∈ pyKeys (efficiencies_in labels) ↔ k ∈ labels.take 3 := by
  rw [efficiencies_in, mem_pyKeys_pyDict, map_fst_zip_eq_take]
  have hlen : (round_trip_efficiencies.map
      (fun q => Real.sqrt (q : ℝ))).length = 3 := rfl
  rw [hlen]

theorem keys_efficiencies_out (labels : List String) (k : String) :
    k ∈ pyKeys (efficiencies_out labels) ↔ k ∈ labels.take 3 := by
  rw [efficiencies_out, mem_pyKeys_pyDict, map_fst_zip_eq_take]
  have hlen : (round_trip_efficiencies.map
      (fun q => Real.sqrt (q : ℝ))).length = 3 := rfl
  rw [hlen]

theorem keys_hourly_losses (labels : List String) (k : String) :
    k ∈ pyKeys (hourly_losses labels) ↔ k ∈ labels.take 3 := by
  rw [hourly_losses, mem_pyKeys_pyDict, map_fst_zip_eq_take]
  have hlen : (([9 / 10, 1 / 10, 0] : List ℚ).map
      (fun q => q / 100 / 24)).length = 3 := rfl
  rw [hlen]

/-! Positivity of annualized capital costs. -/

theorem annualized_pos (cost : ℚ) (hc : 0 < cost) (lifetime : ℕ)
    (hl : 0 < lifetime) : 0 < annualized cost lifetime := by
  unfold annualized
  have h1 : 0 < annuity lifetime (7 / 100) :=
    annuity_pos lifetime hl (7 / 100) (by norm_num)
  have h2 : (0 : ℚ) < 1 + 3 / 100 := by norm_num
  exact mul_pos (mul_pos h1 hc) h2

theorem annualized_zip_values_pos (labels : List String) (costs : List ℚ)
    (lts : List ℕ) (hc : ∀ c ∈ costs, 0 < c) (hl : ∀ t ∈ lts, 0 < t) :
    ∀ v ∈ pyValues (pyDict ((labels.zip (costs.zip lts)).map
      (fun x => (x.1, annualized x.2.1 x.2.2)))), 0 < v := by
  intro v hv
  have hmem := mem_pyValues_pyDict _ _ hv
  rw [List.map_map] at hmem
  rw [List.mem_map] at hmem
  obtain ⟨x, hx, hxv⟩ := hmem
  have hx2 : x.2 ∈ costs.zip lts := (List.of_mem_zip hx).2
  have hcost : x.2.1 ∈ costs := (List.of_mem_zip hx2).1
  have hlt : x.2.2 ∈ lts := (List.of_mem_zip hx2).2
  have : v = annualized x.2.1 x.2.2 := hxv.symm
  rw [this]
  exact annualized_pos x.2.1 (hc _ hcost) x.2.2 (hl _ hlt)

/-! Claim theorems. -/

/-- C4: for every positive lifetime `n` and every discount rate `r`,
`annuity n r` equals `r / (1 - (1+r)^(-n))` when `r > 0` and `1/n` when
`r ≤ 0`, exactly as the code computes (`r/(1. - 1./(1.+r)**n)` resp.
`1/n`). -/
theorem annuity_formula (n : ℕ) (r : ℚ) (hn : 0 < n) :
    (0 < r → annuity n r = r / (1 - (1 + r) ^ (-(n : ℤ)))) ∧
    (r ≤ 0 → annuity n r = 1 / (n : ℚ)) := by
  have _hn := hn
  constructor
  · intro hr
    rw [annuity_of_pos n r hr, zpow_neg, zpow_natCast, one_div]
  · intro hr
    exact annuity_of_nonpos n r (not_lt.mpr hr)

theorem annuity_formula_witness :
    (0 < (30 : ℕ)) ∧
    (annuity 30 (7 / 100) = (7 / 100) /
      (1 - (1 + 7 / 100 : ℚ) ^ (-(30 : ℤ)))) ∧
    (annuity 30 (-1 / 10) = 1 / (30 : ℚ)) :=
  ⟨by decide,
   (annuity_formula 30 (7 / 100) (by decide)).1 (by norm_num),
   (annuity_formula 30 (-1 / 10) (by decide)).2 (by norm_num)⟩

/-- C7 counterexample: `annuity n` is not strictly increasing in `r`: the
code returns the constant `1/n` for every `r ≤ 0`, so at `n = 1` the rates
`-1/2 < -1/4` give equal values instead of strictly increasing ones. -/
theorem annuity_monotone_counterexample :
    ((-1 / 2 : ℚ) < -1 / 4) ∧
    ¬ annuity 1 (-1 / 2) < annuity 1 (-1 / 4) := by
  constructor
  · norm_num
  · rw [annuity_of_nonpos 1 (-1 / 2) (by norm_num),
      annuity_of_nonpos 1 (-1 / 4) (by norm_num)]
    exact lt_irrefl _

/-- C7 (amended): for every fixed positive lifetime `n`, `r ↦ annuity n r`
is monotone non-decreasing, and strictly increasing as soon as the smaller
rate is non-negative (on `r ≤ 0` the function is the constant `1/n`). -/
theorem annuity_monotone (n : ℕ) (hn : 0 < n) (r1 r2 : ℚ) (h12 : r1 < r2) :
    annuity n r1 ≤ annuity n r2 ∧
    (0 ≤ r1 → annuity n r1 < annuity n r2) := by
  constructor
  · by_cases h1 : 0 ≤ r1
    · exact (annuity_strict_mono n hn r1 r2 h1 h12).le
    · have ha1 : annuity n r1 = 1 / (n : ℚ) :=
        annuity_of_nonpos n r1 (fun h => h1 h.le)
      by_cases h2 : 0 < r2
      · have h0 : annuity n 0 = 1 / (n : ℚ) :=
          annuity_of_nonpos n 0 (lt_irrefl 0)
        have hlt := annuity_strict_mono n hn 0 r2 le_rfl h2
        rw [ha1, ← h0]
        exact hlt.le
      · rw [ha1, annuity_of_nonpos n r2 h2]
  · intro h1
    exact annuity_strict_mono n hn r1 r2 h1 h12

theorem annuity_monotone_witness :
    (0 < (2 : ℕ)) ∧ ((0 : ℚ) < 1) ∧
    (annuity 2 0 ≤ annuity 2 1 ∧
      (0 ≤ (0 : ℚ) → annuity 2 0 < annuity 2 1)) :=
  ⟨by decide, by norm_num, annuity_monotone 2 (by decide) 0 1 (by norm_num)⟩

/-- C9: `load_hydro_cost` takes no input and returns the single scalar
`annuity(75, 0.07) * (1628 * dollar2euro * 10^3) * (1 + 0.03)` — the
literal per-kW dollar cost converted to per-MW euros, annualized over a
75-year lifetime at 7% discount with a 3% overhead; the result is strictly
positive and, being a pure constant, identical on every call. -/
theorem load_hydro_cost_spec :
    load_hydro_cost
      = annuity 75 (7 / 100) * (1628 * dollar2euro * 10 ^ 3) * (1 + 3 / 100) ∧
    0 < load_hydro_cost ∧
    load_hydro_cost = load_hydro_cost := by
  refine ⟨rfl, ?_, rfl⟩
  have h75 : 0 < annuity 75 (7 / 100) :=
    annuity_pos 75 (by norm_num) (7 / 100) (by norm_num)
  have hc : (0 : ℚ) < 1628 * dollar2euro * 10 ^ 3 := by
    rw [dollar2euro]
    norm_num
  exact annualized_pos _ hc 75 (by norm_num)

/-- C10: every annualized capital cost produced by `load_generator_data`
and by `load_storage_units_data` is strictly positive, for every input
label sequence, and the hydro cost scalar is strictly positive
(all hardcoded capital costs and lifetimes are positive and
`annuity n 0.07 > 0` for positive `n`). -/
theorem capital_costs_positive (genLabels stoLabels : List String) :
    (∀ v ∈ pyValues (dict_capital_costs_annualized genLabels), 0 < v) ∧
    (∀ v ∈ pyValues
        (dict_capital_costs_annualized_storageunits stoLabels), 0 < v) ∧
    0 < load_hydro_cost := by
  refine ⟨?_, ?_, ?_⟩
  · apply annualized_zip_values_pos
    · intro c hc
      rw [capital_costs] at hc
      rw [List.mem_map] at hc
      obtain ⟨a, ha, rfl⟩ := hc
      have ha' : a = 1333 / 1000 ∨ a = 26 / 100 ∨ a = 435 / 1000 ∨
          a = 175 / 100 ∨ a = 9 ∨ a = 31 / 10 := by simpa using ha
      rcases ha' with rfl | rfl | rfl | rfl | rfl | rfl <;> norm_num
    · intro t ht
      have ht' : t = 30 ∨ t = 25 ∨ t = 25 ∨ t = 15 ∨ t = 40 ∨ t = 25 := by
        simpa [lifetimes] using ht
      rcases ht' with rfl | rfl | rfl | rfl | rfl | rfl <;> norm_num
  · apply annualized_zip_values_pos
    · intro c hc
      have hc' : c = 63 / 1000 * 10 ^ 6 / (120 / 800) ∨
          c = 66 / 100 * 10 ^ 6 / (35 / 10 / 7) ∨
          c = 37 / 100 * 10 ^ 6 / (5 / 10 / 2) := by
        simpa [capital_costs_storageunits, capital_costs_storageunits_MWh,
          Crates] using hc
      rcases hc' with rfl | rfl | rfl <;> norm_num
    · intro t ht
      have ht' : t = 25 ∨ t = 25 ∨ t = 20 := by
        simpa [lifetimes_storageunits] using ht
      rcases ht' with rfl | rfl | rfl <;> norm_num
  · have hc : (0 : ℚ) < 1628 * dollar2euro * 10 ^ 3 := by
      rw [dollar2euro]
      norm_num
    exact annualized_pos _ hc 75 (by norm_num)

theorem capital_costs_positive_witness : 0 < load_hydro_cost :=
  (capital_costs_positive [] []).2.2

/-- C1 counterexample: on the two-label call the fourth returned value
still has six entries — it is the fixed `CO2_emissions` list, not a
mapping keyed by the two input labels (which would have two entries). -/
theorem load_generator_data_co2_not_keyed :
    ((load_generator_data ["wind", "solar"]).map
        (fun d => d.2.2.2.length) = some 6) ∧
    ¬ ((load_generator_data ["wind", "solar"]).map
        (fun d => d.2.2.2.length) = some 2) := by
  have h : load_generator_data ["wind", "solar"]
      = some (dict_capital_costs_annualized ["wind", "solar"],
              pyDict [("wind", (0 : ℚ)), ("solar", 0)],
              dict_efficiencies ["wind", "solar"], CO2_emissions) := by
    simp [load_generator_data, dict_marginal_costs, marginalCostPairs,
      dict_fuel_costs, dict_efficiencies, fuel_costs, fuel_costs_dollars,
      dollar2euro, efficiencies, pyGet, pyDict, pyDictInsert]
  rw [h]
  constructor
  · rfl
  · intro hcontra
    simp [CO2_emissions] at hcontra

/-- C1 (amended): whenever `load_generator_data` does not raise (it does
raise for some inputs, see C3), the first three returned values are
mappings keyed by exactly the zip-truncated input labels, while the
fourth returned value is the fixed six-element `CO2_emissions` list, not
keyed by the labels. -/
theorem load_generator_data_mappings (labels : List String)
    (d : List (String × ℚ) × List (String × ℚ) × List (String × ℚ) × List ℚ)
    (h : load_generator_data labels = some d) :
    (∀ k, k ∈ pyKeys d.1 ↔ k ∈ labels.take 6) ∧
    (∀ k, k ∈ pyKeys d.2.1 ↔ k ∈ labels.take 6) ∧
    (∀ k, k ∈ pyKeys d.2.2.1 ↔ k ∈ labels.take 6) ∧
    d.2.2.2 = CO2_emissions ∧ CO2_emissions.length = 6 := by
  rw [load_generator_data] at h
  obtain ⟨mc, hmc, rfl⟩ := Option.map_eq_some'.mp h
  rw [dict_marginal_costs] at hmc
  obtain ⟨ms, hms, rfl⟩ := Option.map_eq_some'.mp hmc
  refine ⟨fun k => keys_dict_capital labels k, ?_,
    fun k => keys_dict_efficiencies labels k, rfl, rfl⟩
  intro k
  rw [mem_pyKeys_pyDict, marginalCostPairs_map_fst _ _ labels ms hms]
  have hsome : (marginalCostPairs (dict_fuel_costs labels)
      (dict_efficiencies labels) labels).isSome = true := by
    rw [hms]
    rfl
  have hall := (marginalCostPairs_isSome_iff _ _ labels).mp hsome
  constructor
  · intro hk
    exact (keys_dict_fuel labels k).mp (hall k hk).1
  · intro hk
    exact List.take_subset 6 labels hk

theorem load_generator_data_mappings_witness :
    (load_generator_data ["wind", "solar"]
      = some (dict_capital_costs_annualized ["wind", "solar"],
              pyDict [("wind", (0 : ℚ)), ("solar", 0)],
              dict_efficiencies ["wind", "solar"], CO2_emissions)) ∧
    ("wind" ∈ pyKeys (dict_capital_costs_annualized ["wind", "solar"]) ↔
      "wind" ∈ (["wind", "solar"] : List String).take 6) := by
  have h : load_generator_data ["wind", "solar"]
      = some (dict_capital_costs_annualized ["wind", "solar"],
              pyDict [("wind", (0 : ℚ)), ("solar", 0)],
              dict_efficiencies ["wind", "solar"], CO2_emissions) := by
    simp [load_generator_data, dict_marginal_costs, marginalCostPairs,
      dict_fuel_costs, dict_efficiencies, fuel_costs, fuel_costs_dollars,
      dollar2euro, efficiencies, pyGet, pyDict, pyDictInsert]
  exact ⟨h, (load_generator_data_mappings ["wind", "solar"] _ h).1 "wind"⟩

/-- C3 counterexample: a seven-label call whose seventh label is fresh
does signal an error — the marginal-cost comprehension raises `KeyError`
(modelled as `none`) — instead of silently truncating to six entries. -/
theorem load_generator_data_overlong_counterexample :
    6 < (["wind", "solar", "OCGT", "coal", "biomass", "nuclear", "hydro"] :
        List String).length ∧
    load_generator_data
        ["wind", "solar", "OCGT", "coal", "biomass", "nuclear", "hydro"]
      = none := by
  constructor
  · decide
  · simp [load_generator_data, dict_marginal_costs, marginalCostPairs,
      dict_fuel_costs, dict_efficiencies, fuel_costs, fuel_costs_dollars,
      dollar2euro, kJ2MWh, coal_energy_density, efficiencies, pyGet,
      pyDict, pyDictInsert]

/-- C3 (amended): on label sequences longer than six, the dictionaries
zip against only the first six labels (six entries), but the call
completes without error only when every label past the sixth already
occurs among the first six; otherwise it raises `KeyError` (`none`)
while building the marginal-cost dict, rather than truncating silently. -/
theorem load_generator_data_overlong (labels : List String)
    (h6 : 6 < labels.length) :
    (load_generator_data labels = none ↔
      ∃ t ∈ labels.drop 6, t ∉ labels.take 6) ∧
    (labels.take 6).length = 6 := by
  constructor
  · rw [load_generator_data, Option.map_eq_none', dict_marginal_costs,
      Option.map_eq_none', ← Option.not_isSome_iff_eq_none,
      marginalCostPairs_isSome_iff]
    constructor
    · intro hnall
      push_neg at hnall
      obtain ⟨t, ht, hnot⟩ := hnall
      by_cases htk : t ∈ labels.take 6
      · exfalso
        exact hnot ((keys_dict_fuel labels t).mpr htk)
          ((keys_dict_efficiencies labels t).mpr htk)
      · refine ⟨t, ?_, htk⟩
        have hsplit := List.take_append_drop 6 labels
        rw [← hsplit] at ht
        rcases List.mem_append.mp ht with h | h
        · exact absurd h htk
        · exact h
    · rintro ⟨t, ht, hnt⟩ hall
      have htl : t ∈ labels := by
        have hsplit := List.take_append_drop 6 labels
        rw [← hsplit]
        exact List.mem_append.mpr (Or.inr ht)
      exact hnt ((keys_dict_fuel labels t).mp (hall t htl).1)
  · rw [List.length_take]
    omega

theorem load_generator_data_overlong_witness :
    6 < (["wind", "solar", "OCGT", "coal", "biomass", "nuclear", "wind"] :
        List String).length ∧
    ((load_generator_data
          ["wind", "solar", "OCGT", "coal", "biomass", "nuclear", "wind"]
        = none ↔
      ∃ t ∈ (["wind", "solar", "OCGT", "coal", "biomass", "nuclear",
          "wind"] : List String).drop 6,
        t ∉ (["wind", "solar", "OCGT", "coal", "biomass", "nuclear",
          "wind"] : List String).take 6) ∧
    ((["wind", "solar", "OCGT", "coal", "biomass", "nuclear", "wind"] :
        List String).take 6).length = 6) :=
  ⟨by decide, load_generator_data_overlong _ (by decide)⟩

/-- C8: the short call `load_generator_data ["wind", "solar"]` completes
without error, and its three mappings have key lists exactly
`["wind", "solar"]`. -/
theorem load_generator_data_short_call :
    (load_generator_data ["wind", "solar"]).map
        (fun d => (pyKeys d.1, pyKeys d.2.1, pyKeys d.2.2.1))
      = some (["wind", "solar"], ["wind", "solar"], ["wind", "solar"]) := by
  simp [load_generator_data, dict_marginal_costs, marginalCostPairs,
    dict_capital_costs_annualized, dict_fuel_costs, dict_efficiencies,
    capital_costs, lifetimes, fuel_costs, fuel_costs_dollars, dollar2euro,
    efficiencies, pyGet, pyDict, pyDictInsert, pyKeys]

set_option maxHeartbeats 1000000 in
/-- C5: on the canonical six-label call, wind and solar have zero
marginal cost and zero CO2 emission factor (list positions 0 and 1),
OCGT and coal have strictly positive marginal cost and CO2 emission
factor (positions 2 and 3), and the efficiency of wind, solar and
biomass equals 1. -/
theorem load_generator_data_canonical_values :
    ((load_generator_data generator_labels).bind
        (fun d => pyGet d.2.1 "wind") = some 0) ∧
    ((load_generator_data generator_labels).bind
        (fun d => pyGet d.2.1 "solar") = some 0) ∧
    (0 < ((load_generator_data generator_labels).bind
        (fun d => pyGet d.2.1 "OCGT")).getD 0) ∧
    (0 < ((load_generator_data generator_labels).bind
        (fun d => pyGet d.2.1 "coal")).getD 0) ∧
    ((load_generator_data generator_labels).map
        (fun d => d.2.2.2.getD 0 0) = some 0) ∧
    ((load_generator_data generator_labels).map
        (fun d => d.2.2.2.getD 1 0) = some 0) ∧
    (0 < ((load_generator_data generator_labels).map
        (fun d => d.2.2.2.getD 2 0)).getD 0) ∧
    (0 < ((load_generator_data generator_labels).map
        (fun d => d.2.2.2.getD 3 0)).getD 0) ∧
    ((load_generator_data generator_labels).bind
        (fun d => pyGet d.2.2.1 "wind") = some 1) ∧
    ((load_generator_data generator_labels).bind
        (fun d => pyGet d.2.2.1 "solar") = some 1) ∧
    ((load_generator_data generator_labels).bind
        (fun d => pyGet d.2.2.1 "biomass") = some 1) := by
  refine ⟨?_, ?_, ?_, ?_, ?_, ?_, ?_, ?_, ?_, ?_, ?_⟩ <;>
    simp [generator_labels, load_generator_data, dict_marginal_costs,
      marginalCostPairs, dict_fuel_costs, dict_efficiencies, fuel_costs,
      fuel_costs_dollars, dollar2euro, kJ2MWh, coal_energy_density,
      efficiencies, CO2_emissions, gas_co2_emissions, coal_co2_emissions,
      MMBtu2MWh, pyGet, pyDict, pyDictInsert, List.getD]

/-- C2 counterexample: even on a one-label call the fourth value returned
by `load_storage_units_data` is the raw three-entry C-rate list — not a
mapping keyed by the single input label (which would have one entry). -/
theorem load_storage_units_data_crates_counterexample :
    ((load_storage_units_data ["carnot"]).2.2.2.1.length = 3) ∧
    ¬ ((load_storage_units_data ["carnot"]).2.2.2.1.length = 1) := by
  have h : (load_storage_units_data ["carnot"]).2.2.2.1 = Crates := rfl
  refine ⟨by rw [h]; decide, by rw [h]; decide⟩

/-- C2 (amended): four of the five values returned by
`load_storage_units_data` (annualized capital cost, charge efficiency,
discharge efficiency, hourly self-discharge loss) are mappings keyed by
exactly the zip-truncated labels; the fourth returned value, however, is
the raw three-element C-rate list, not keyed by the labels. -/
theorem load_storage_units_data_mappings (labels : List String) :
    (∀ k, k ∈ pyKeys (load_storage_units_data labels).1 ↔
        k ∈ labels.take 3) ∧
    (∀ k, k ∈ pyKeys (load_storage_units_data labels).2.1 ↔
        k ∈ labels.take 3) ∧
    (∀ k, k ∈ pyKeys (load_storage_units_data labels).2.2.1 ↔
        k ∈ labels.take 3) ∧
    (∀ k, k ∈ pyKeys (load_storage_units_data labels).2.2.2.2 ↔
        k ∈ labels.take 3) ∧
    (load_storage_units_data labels).2.2.2.1 = Crates ∧
    Crates.length = 3 :=
  ⟨fun k => keys_dict_capital_storage labels k,
   fun k => keys_efficiencies_in labels k,
   fun k => keys_efficiencies_out labels k,
   fun k => keys_hourly_losses labels k, rfl, rfl⟩

theorem load_storage_units_data_mappings_witness :
    "Li-ion" ∈ pyKeys (load_storage_units_data storage_labels).2.1 ↔
      "Li-ion" ∈ storage_labels.take 3 :=
  (load_storage_units_data_mappings storage_labels).2.1 "Li-ion"

/-- C6: the charge- and discharge-efficiency mappings returned by
`load_storage_units_data` agree at every label (both are built from the
same square-root literals), and on the canonical labels each entry is the
square root of that technology's literal round-trip efficiency —
in particular Li-ion gets `sqrt 0.92`. -/
theorem storage_efficiency_split :
    (∀ (labels : List String) (k : String),
        pyGet (load_storage_units_data labels).2.1 k
          = pyGet (load_storage_units_data labels).2.2.1 k) ∧
    pyGet (load_storage_units_data storage_labels).2.1 "molten salt"
      = some (Real.sqrt (3 / 10)) ∧
    pyGet (load_storage_units_data storage_labels).2.1 "Li-ion"
      = some (Real.sqrt (92 / 100)) ∧
    pyGet (load_storage_units_data storage_labels).2.1 "vanadium redox"
      = some (Real.sqrt (78 / 100)) ∧
    pyGet (load_storage_units_data storage_labels).2.2.1 "Li-ion"
      = some (Real.sqrt (92 / 100)) := by
  refine ⟨fun labels k => rfl, ?_, ?_, ?_, ?_⟩ <;>
    simp [load_storage_units_data, efficiencies_in, efficiencies_out,
      storage_labels, round_trip_efficiencies, pyGet, pyDict, pyDictInsert]
